import Mathlib

/-!
Shallow embedding of the fuel-export generator
(`dags/generate_fuel_exports.py`) and of the Postgres sink adapter
(`dags/add_data.py`).

Modelling conventions:
* Python `Decimal` values with exponent -2 (two fractional digits) are
  represented by their integer number of cents (`ℤ`); `centsVal` recovers
  the rational value.
* The ambient random source (`random.*`, `fake.name()`, `datetime.now`)
  is made explicit: every draw the source performs is a field of
  `RecInput`, and index draws are arbitrary naturals reduced modulo the
  size of the pool being drawn from (a faithful rendering of "pick a
  uniformly random valid index").
* Binary floats are represented by the exact rational they denote.
  `round(x, 2)` is decimal rounding half-to-even (`round2even`), and the
  CPython conversion `float(Decimal)` is round-to-nearest-even binary64
  (`toF64`), both over ℚ.
-/

namespace FuelExports

/-- Pick an element of a list from an arbitrary natural draw, reduced
modulo the list length; models `random.choice` (which picks a uniformly
random valid index). Returns `d` only for the empty list. -/
def pickD {α : Type} (l : List α) (d : α) (k : ℕ) : α :=
  l.getD (k % l.length) d

/-- `FUEL_TYPES` pool, from the source. -/
def FUEL_TYPES : List String :=
  ["HyperMatter", "Antimatter", "Hydrogen", "Deuterium", "Tri-Tachyon",
   "QuantumFlux", "Plasma", "DarkIon", "Helium-3"]

/-- `SERVICE_MENU` pool, from the source. -/
def SERVICE_MENU : List String :=
  ["hull patch", "oxygen refill", "hyperdrive check", "radiation scrub",
   "life-support tune-up", "gyro recalibration", "sensor alignment",
   "cargo sealant", "RCS fuel", "shield recharge"]

/-- `FRANCHISE_SHIPS` mapping, from the source (dict retains insertion
order in Python, so an association list is a faithful model). -/
def FRANCHISE_SHIPS : List (String × List String) :=
  [("Star Wars", ["Millennium Falcon", "X-Wing", "Slave I", "TIE Advanced", "Ghost"]),
   ("Mass Effect", ["SSV Normandy SR-1", "SSV Normandy SR-2", "Tempest"]),
   ("Halo", ["Pillar of Autumn", "In Amber Clad", "Spirit of Fire"]),
   ("Star Trek", ["USS Enterprise", "USS Defiant", "USS Voyager", "USS Discovery"]),
   ("Firefly", ["Serenity"]),
   ("The Expanse", ["Rocinante", "Canterbury", "Agatha King"]),
   ("Elite Dangerous", ["Cobra Mk III", "Asp Explorer", "Anaconda"]),
   ("No Man\x27s Sky", ["Exotic S-Class", "Hauler C-Class", "Explorer A-Class"]),
   ("Dune", ["Heighliner", "Ornithopter"]),
   ("Battlestar Galactica", ["Galactica", "Pegasus", "Raptor"]),
   ("Star Citizen", ["Constellation Andromeda", "Cutlass Black", "Carrack"]),
   ("Alien", ["USCSS Nostromo", "USCSS Prometheus"])]

/-- `SPECIES` pool, from the source. -/
def SPECIES : List String :=
  ["Human", "Asari", "Turian", "Sangheili", "Vulcan", "Twi\x27lek",
   "Belter", "Kree", "Time Lord", "Zabrak", "Klingon", "Protoss"]

/-- The ship lists of `FRANCHISE_SHIPS` indexed by franchise name
(`FRANCHISE_SHIPS[franchise]`). -/
def shipsOf (franchise : String) : List String :=
  (FRANCHISE_SHIPS.lookup franchise).getD []

/-- A timezone-aware UTC instant, as produced by
`datetime.now(timezone.utc)` (microsecond resolution). -/
structure DateTimeUTC where
  year : ℕ
  month : ℕ
  day : ℕ
  hour : ℕ
  minute : ℕ
  second : ℕ
  micro : ℕ

/-- A Python `datetime.date`. -/
structure PyDate where
  year : ℕ
  month : ℕ
  day : ℕ

/-- The calendar-date projection of a timestamp:
`date(t.year, t.month, t.day)`. -/
def dateOf (t : DateTimeUTC) : PyDate :=
  ⟨t.year, t.month, t.day⟩

/-- The dock struct `{"bay": int, "level": str}`. -/
structure Dock where
  bay : ℕ
  level : String

/-- Rational value of an integer count of cents (a Python `Decimal` with
two fractional digits). -/
def centsVal (c : ℤ) : ℚ := (c : ℚ) / 100

/-- `Decimal.quantize(Decimal("0.01"), rounding=ROUND_HALF_UP)`: round to
two fractional digits, ties away from zero, returning cents. -/
def dquantize2 (x : ℚ) : ℤ :=
  if 0 ≤ x then ⌊100 * x + 1/2⌋ else -⌊100 * (-x) + 1/2⌋

/-- Round a rational to the nearest integer, ties to even: the rounding
CPython `round` applies. -/
def roundHalfEvenZ (x : ℚ) : ℤ :=
  let n := ⌊x + 1/2⌋
  if x + 1/2 = (n : ℚ) ∧ n % 2 ≠ 0 then n - 1 else n

/-- Python `round(x, 2)`, in cents: decimal rounding of `x` to two
fractional digits with ties to even. -/
def round2even (x : ℚ) : ℤ := roundHalfEvenZ (100 * x)

/-- `money_decimal(minimum, maximum)` after the uniform draw `u`:
`Decimal(u).quantize(Decimal("0.01"), rounding=ROUND_HALF_UP)`, in cents.
The conversion `Decimal(float)` is exact, so the whole body is
`dquantize2` applied to the drawn value. -/
def money_decimal (u : ℚ) : ℤ := dquantize2 u

/-- `random_ship_and_franchise()`: choose a franchise from the dict keys,
then a ship from that franchise's list; `fr` and `sr` are the two index
draws. -/
def random_ship_and_franchise (fr sr : ℕ) : String × String :=
  let franchise := pickD (FRANCHISE_SHIPS.map Prod.fst) "" fr
  let ship := pickD (shipsOf franchise) "" sr
  (ship, franchise)

/-- `random_station_id()`: `random.randint(1000, 9999)` (9000 values). -/
def random_station_id (r : ℕ) : ℕ := 1000 + r % 9000

/-- The first 8 uppercase ASCII letters (`string.ascii_uppercase[:8]`),
as one-character strings (Python string iteration). -/
def ascii_upper8 : List String := ["A", "B", "C", "D", "E", "F", "G", "H"]

/-- `random_dock_struct()`: bay in `[1, 128]`, level a single letter from
the first 8 uppercase letters. -/
def random_dock_struct (bayR lvlR : ℕ) : Dock :=
  ⟨1 + bayR % 128, pickD ascii_upper8 "A" lvlR⟩

/-- `random.sample(pool, k)` driven by an explicit stream of index draws:
repeatedly pick a remaining element (by a random valid index) and remove
it from the pool, `k` times. -/
def sampleAux {α : Type} (dflt : α) : List α → ℕ → (ℕ → ℕ) → List α
  | _, 0, _ => []
  | pool, k + 1, r =>
    if pool.isEmpty then []
    else
      pool.getD (r 0 % pool.length) dflt ::
        sampleAux dflt (pool.eraseIdx (r 0 % pool.length)) k (fun n => r (n + 1))

/-- `random_services()`: `k = random.randint(1, 4)` then
`random.sample(SERVICE_MENU, k=k)`. -/
def random_services (kR : ℕ) (rs : ℕ → ℕ) : List String :=
  sampleAux "" SERVICE_MENU (1 + kR % 4) rs

/-- Decimal digit character: `'0' + n % 10`. -/
def digitChar (n : ℕ) : Char := Char.ofNat (48 + n % 10)

/-- Strftime zero-padded 2-digit field (`%m`, `%d`, `%H`, `%M`, `%S`);
matches CPython for field values below 100. -/
def pad2 (n : ℕ) : List Char := [digitChar (n / 10), digitChar n]

/-- Strftime zero-padded 4-digit field (`%Y`); matches CPython for years
below 10000. -/
def pad4 (n : ℕ) : List Char :=
  [digitChar (n / 1000), digitChar (n / 100), digitChar (n / 10), digitChar n]

/-- Strftime zero-padded 6-digit microsecond field (`%f`). -/
def pad6 (n : ℕ) : List Char :=
  [digitChar (n / 100000), digitChar (n / 10000), digitChar (n / 1000),
   digitChar (n / 100), digitChar (n / 10), digitChar n]

/-- `random_uuid_like()`: UTC timestamp at microsecond resolution
(`%Y%m%d%H%M%S%f`) followed by `-` and a 10-character random suffix. -/
def random_uuid_like (t : DateTimeUTC) (suffix : String) : String :=
  String.mk (pad4 t.year ++ pad2 t.month ++ pad2 t.day ++ pad2 t.hour ++
    pad2 t.minute ++ pad2 t.second ++ pad6 t.micro) ++ "-" ++ suffix

/-- One record of the generator: the dict built by `make_record`, with
`price_per_unit` and `total_cost` (Python `Decimal`s quantized to two
fractional digits) stored as cents. -/
structure Record where
  transaction_id : String
  station_id : ℕ
  dock : Dock
  ship_name : String
  franchise : String
  captain_name : String
  species : String
  fuel_type : String
  fuel_units : ℚ
  price_per_unit : ℤ
  total_cost : ℤ
  services : List String
  is_emergency : Bool
  visited_at : DateTimeUTC
  arrival_date : PyDate
  coords_x : ℚ
  coords_y : ℚ

/-- Every draw the ambient random source (and Faker, and the clock)
performs during one `make_record()` call, made explicit. -/
structure RecInput where
  fr : ℕ
  sr : ℕ
  captain : String
  spR : ℕ
  ftR : ℕ
  fuelU : ℚ
  ppuU : ℚ
  visited : DateTimeUTC
  kR : ℕ
  srv : ℕ → ℕ
  emergU : ℚ
  cx : ℚ
  cy : ℚ
  idTs : DateTimeUTC
  idSuf : String
  stR : ℕ
  bayR : ℕ
  lvlR : ℕ

/-- `make_record()`, from the source: `fuelU` is the `random.uniform(50, 5000)`
draw (then rounded to 2 decimal digits), `ppuU` the `random.uniform(10, 800)`
draw inside `money_decimal`, `emergU` the `random.random()` draw. The
string conversion `Decimal(str(fuel_units))` recovers the 2-digit decimal
value of the rounded float, which is exactly `round2even i.fuelU` cents. -/
def make_record (i : RecInput) : Record :=
  let sf := random_ship_and_franchise i.fr i.sr
  let fuel_units : ℚ := (round2even i.fuelU : ℚ) / 100
  let ppu := money_decimal i.ppuU
  let total := dquantize2 (fuel_units * centsVal ppu)
  { transaction_id := random_uuid_like i.idTs i.idSuf
    station_id := random_station_id i.stR
    dock := random_dock_struct i.bayR i.lvlR
    ship_name := sf.1
    franchise := sf.2
    captain_name := i.captain
    species := pickD SPECIES "" i.spR
    fuel_type := pickD FUEL_TYPES "" i.ftR
    fuel_units := fuel_units
    price_per_unit := ppu
    total_cost := total
    services := random_services i.kR i.srv
    is_emergency := decide (i.emergU < 3/100)
    visited_at := i.visited
    arrival_date := dateOf i.visited
    coords_x := i.cx
    coords_y := i.cy }

/-- `make_batch(n_rows)`: `[make_record() for _ in range(n_rows)]`, with
`g` supplying the random draws of each iteration (Python `range` of a
non-positive int is empty, hence `Int.toNat`). -/
def make_batch (n : ℤ) (g : ℕ → RecInput) : List Record :=
  (List.range n.toNat).map fun j => make_record (g j)

/-- Arrow column types occurring in `build_schema` (nested struct and
list types carry their element layout). -/
inductive PType where
  | string : PType
  | int32 : PType
  | int16 : PType
  | structT : List (String × PType) → PType
  | float32 : PType
  | decimal128 : ℕ → ℕ → PType
  | listT : PType → PType
  | bool : PType
  | timestamp : String → PType
  | date32 : PType
  | float64 : PType

/-- Python values as they reach pyarrow / psycopg2 from a record dict. -/
inductive PValue where
  | str : String → PValue
  | int : ℤ → PValue
  | structV : List (String × PValue) → PValue
  | dec : ℤ → PValue
  | flt : ℚ → PValue
  | listV : List PValue → PValue
  | boolV : Bool → PValue
  | ts : DateTimeUTC → PValue
  | dateV : PyDate → PValue

/-- `build_schema()`, from the source: the fixed 17-column specification. -/
def build_schema : List (String × PType) :=
  [("transaction_id", .string),
   ("station_id", .int32),
   ("dock", .structT [("bay", .int16), ("level", .string)]),
   ("ship_name", .string),
   ("franchise", .string),
   ("captain_name", .string),
   ("species", .string),
   ("fuel_type", .string),
   ("fuel_units", .float32),
   ("price_per_unit", .decimal128 8 2),
   ("total_cost", .decimal128 12 2),
   ("services", .listT .string),
   ("is_emergency", .bool),
   ("visited_at", .timestamp "UTC"),
   ("arrival_date", .date32),
   ("coords_x", .float64),
   ("coords_y", .float64)]

/-- The dict returned by `make_record`, in Python insertion order, as
(key, value) pairs. -/
def recordDict (r : Record) : List (String × PValue) :=
  [("transaction_id", .str r.transaction_id),
   ("station_id", .int r.station_id),
   ("dock", .structV [("bay", .int r.dock.bay), ("level", .str r.dock.level)]),
   ("ship_name", .str r.ship_name),
   ("franchise", .str r.franchise),
   ("captain_name", .str r.captain_name),
   ("species", .str r.species),
   ("fuel_type", .str r.fuel_type),
   ("fuel_units", .flt r.fuel_units),
   ("price_per_unit", .dec r.price_per_unit),
   ("total_cost", .dec r.total_cost),
   ("services", .listV (r.services.map .str)),
   ("is_emergency", .boolV r.is_emergency),
   ("visited_at", .ts r.visited_at),
   ("arrival_date", .dateV r.arrival_date),
   ("coords_x", .flt r.coords_x),
   ("coords_y", .flt r.coords_y)]

/-- Scalar conformance of one value to one Arrow column type, as
`pa.Table.from_pylist` checks it: integers must fit the declared width,
a `decimal128(p, s)` value must fit `p` digits; nested types are handled
by `conformsField`. -/
def conformsScalar : PValue → PType → Bool
  | .str _, .string => true
  | .int n, .int32 => decide (-(2 : ℤ)^31 ≤ n ∧ n < 2^31)
  | .int n, .int16 => decide (-(2 : ℤ)^15 ≤ n ∧ n < 2^15)
  | .dec c, .decimal128 p _ => decide (c.natAbs < 10 ^ p)
  | .flt _, .float32 => true
  | .flt _, .float64 => true
  | .boolV _, .bool => true
  | .ts _, .timestamp _ => true
  | .dateV _, .date32 => true
  | _, _ => false

/-- Conformance of one column value, one level of nesting deep — exactly
the nesting depth `build_schema` declares (one struct of scalars, one
list of strings). -/
def conformsField : PValue → PType → Bool
  | .structV fv, .structT ft =>
    fv.length == ft.length &&
      (fv.zip ft).all fun p => p.1.1 == p.2.1 && conformsScalar p.1.2 p.2.2
  | .listV vs, .listT t => vs.all fun v => conformsScalar v t
  | v, t => conformsScalar v t

/-- Conformance of a whole record dict to a schema: the key sequence must
equal the schema's column names, and every value must conform to its
column's type. -/
def conformsRecord (schema : List (String × PType)) (d : List (String × PValue)) : Bool :=
  d.map Prod.fst == schema.map Prod.fst &&
    (d.zip schema).all fun p => conformsField p.1.2 p.2.2

/-- The structural metadata of an Arrow table (`table.num_rows`,
`table.num_columns`). -/
structure PATable where
  num_rows : ℕ
  num_columns : ℕ

/-- `pa.Table.from_pylist(records, schema=schema)`: errors when some
record does not conform to the schema, otherwise yields a table with one
row per record and one column per schema entry. -/
def from_pylist (records : List Record) (schema : List (String × PType)) :
    Except String PATable :=
  if records.all fun r => conformsRecord schema (recordDict r) then
    .ok ⟨records.length, schema.length⟩
  else
    .error "schema mismatch"

/-- `datetime.now(timezone.utc).strftime("%Y%m%d_%H%M%S")`: the
second-resolution UTC stamp used in the output file name. -/
def stampChars (t : DateTimeUTC) : List Char :=
  pad4 t.year ++ pad2 t.month ++ pad2 t.day ++
    ('_' :: (pad2 t.hour ++ pad2 t.minute ++ pad2 t.second))

/-- The second-resolution timestamp string of `write_parquet`. -/
def timestampSecondStr (t : DateTimeUTC) : String := String.mk (stampChars t)

/-- `f"fuel_export_{ts}.parquet"`, from `write_parquet`. -/
def parquetFilename (t : DateTimeUTC) : String :=
  "fuel_export_" ++ timestampSecondStr t ++ ".parquet"

/-- The output file `write_parquet` produces: its name and the reported
row/column counts. -/
structure ParquetFile where
  name : String
  rows : ℕ
  cols : ℕ

/-- `write_parquet(records, out_dir, schema)` at UTC write time `t`:
build the Arrow table (fallible on schema violation), name the file from
the second-resolution UTC stamp, write it. -/
def write_parquet (records : List Record) (t : DateTimeUTC) :
    Except String ParquetFile :=
  (from_pylist records build_schema).map fun tab =>
    ⟨parquetFilename t, tab.num_rows, tab.num_columns⟩

/-- One iteration of `main`'s generation loop (also the body of the
`export_file` task): generate `rows_per_file` records and write one
parquet file. The source validates the row count nowhere, so the only
error channel is the writer's. -/
def run_once (rows_per_file : ℤ) (g : ℕ → RecInput) (t : DateTimeUTC) :
    Except String ParquetFile :=
  write_parquet (make_batch rows_per_file g) t

/-- Binary exponent search: bring `q` into `[1, 2)` by repeated doubling
or halving, returning the floor of log₂ `q`; `fuel` bounds the recursion
and is ample for every positive rational a finite binary64 can carry. -/
def floorLog2Aux : ℕ → ℚ → ℤ → ℤ
  | 0, _, e => e
  | fuel + 1, q, e =>
    if q < 1 then floorLog2Aux fuel (2 * q) (e - 1)
    else if 2 ≤ q then floorLog2Aux fuel (q / 2) (e + 1)
    else e

/-- Floor of log₂ of a positive rational. -/
def floorLog2 (q : ℚ) : ℤ := floorLog2Aux 2400 q 0

/-- CPython `float(Decimal)`: round the exact value to the nearest
binary64, ties to even — i.e. to the nearest multiple of an ulp, which
for a normal positive value is `2 ^ (floorLog2 q - 52)`. Exponent-range
clamping (overflow, subnormals) is outside the values this program
produces and is not modelled. -/
def toF64 (q : ℚ) : ℚ :=
  if q = 0 then 0
  else if 0 < q then
    (roundHalfEvenZ (q / 2 ^ (floorLog2 q - 52)) : ℚ) * 2 ^ (floorLog2 q - 52)
  else
    -((roundHalfEvenZ (-q / 2 ^ (floorLog2 (-q) - 52)) : ℚ) * 2 ^ (floorLog2 (-q) - 52))

/-- The column list of the sink's `INSERT INTO fuel_transactions (...)`
statement in `add_data.py`, in order. -/
def sinkColumns : List String :=
  ["transaction_id", "station_id", "dock_bay", "dock_level", "ship_name",
   "franchise", "captain_name", "species", "fuel_type", "fuel_units",
   "price_per_unit", "total_cost", "services", "is_emergency",
   "visited_at", "arrival_date", "coords_x", "coords_y"]

/-- The row tuple `add_data.py` builds for one record: dict fields in the
tuple's textual order, the dock struct flattened to its two members, and
the two `Decimal` fields passed through `float(...)` (binary64). -/
def exportRow (r : Record) : List PValue :=
  [.str r.transaction_id,
   .int r.station_id,
   .int r.dock.bay,
   .str r.dock.level,
   .str r.ship_name,
   .str r.franchise,
   .str r.captain_name,
   .str r.species,
   .str r.fuel_type,
   .flt r.fuel_units,
   .flt (toF64 (centsVal r.price_per_unit)),
   .flt (toF64 (centsVal r.total_cost)),
   .listV (r.services.map .str),
   .boolV r.is_emergency,
   .ts r.visited_at,
   .dateV r.arrival_date,
   .flt r.coords_x,
   .flt r.coords_y]

/-- The record field each sink column should carry, keyed by the column
names of the sink table's DDL (dock flattened, decimals through
`float`). -/
def sinkValue (r : Record) (c : String) : PValue :=
  if c = "transaction_id" then .str r.transaction_id
  else if c = "station_id" then .int r.station_id
  else if c = "dock_bay" then .int r.dock.bay
  else if c = "dock_level" then .str r.dock.level
  else if c = "ship_name" then .str r.ship_name
  else if c = "franchise" then .str r.franchise
  else if c = "captain_name" then .str r.captain_name
  else if c = "species" then .str r.species
  else if c = "fuel_type" then .str r.fuel_type
  else if c = "fuel_units" then .flt r.fuel_units
  else if c = "price_per_unit" then .flt (toF64 (centsVal r.price_per_unit))
  else if c = "total_cost" then .flt (toF64 (centsVal r.total_cost))
  else if c = "services" then .listV (r.services.map .str)
  else if c = "is_emergency" then .boolV r.is_emergency
  else if c = "visited_at" then .ts r.visited_at
  else if c = "arrival_date" then .dateV r.arrival_date
  else if c = "coords_x" then .flt r.coords_x
  else if c = "coords_y" then .flt r.coords_y
  else .str ""

/-- A concrete draw bundle realizing the spec's example scenario:
`random.uniform(50, 5000)` returned exactly 100 and
`random.uniform(10, 800)` returned exactly 12.345. -/
def exampleInput : RecInput :=
  { fr := 0
    sr := 0
    captain := "Jane Doe"
    spR := 0
    ftR := 0
    fuelU := 100
    ppuU := 12345 / 1000
    visited := ⟨2025, 1, 2, 3, 4, 5, 6⟩
    kR := 0
    srv := fun _ => 0
    emergU := 1 / 2
    cx := 0
    cy := 0
    idTs := ⟨2025, 1, 2, 3, 4, 5, 6⟩
    idSuf := "abc123wxyz"
    stR := 0
    bayR := 0
    lvlR := 0 }

theorem getD_mem_of_lt {α : Type} (l : List α) (i : ℕ) (d : α) (h : i < l.length) :
    l.getD i d ∈ l := by
  rw [List.getD_eq_getElem l d h]
  exact List.getElem_mem h

theorem pickD_mem {α : Type} (l : List α) (d : α) (k : ℕ) (h : l ≠ []) :
    pickD l d k ∈ l :=
  getD_mem_of_lt l _ d (Nat.mod_lt _ (List.length_pos.mpr h))

theorem sampleAux_subset {α : Type} (d : α) :
    ∀ (k : ℕ) (pool : List α) (r : ℕ → ℕ) (x : α),
      x ∈ sampleAux d pool k r → x ∈ pool := by
  intro k
  induction k with
  | zero => intro pool r x hx; simp [sampleAux] at hx
  | succ k ih =>
    intro pool r x hx
    rw [sampleAux] at hx
    split at hx
    · simp at hx
    · rcases List.mem_cons.mp hx with h | h
      · subst h
        exact getD_mem_of_lt _ _ _
          (Nat.mod_lt _ (List.length_pos.mpr (by simpa using ‹¬pool.isEmpty›)))
      · exact List.eraseIdx_subset _ _ (ih _ _ _ h)

theorem sampleAux_length {α : Type} (d : α) :
    ∀ (k : ℕ) (pool : List α) (r : ℕ → ℕ), k ≤ pool.length →
      (sampleAux d pool k r).length = k := by
  intro k
  induction k with
  | zero => intro pool r _; rfl
  | succ k ih =>
    intro pool r hk
    have hne : ¬pool.isEmpty := by
      simp only [List.isEmpty_iff]
      intro h0
      rw [h0] at hk
      simp at hk
    rw [sampleAux, if_neg hne]
    have hlt : r 0 % pool.length < pool.length :=
      Nat.mod_lt _ (by simpa [List.isEmpty_iff, List.length_pos] using hne)
    have herase : (pool.eraseIdx (r 0 % pool.length)).length = pool.length - 1 := by
      rw [List.length_eraseIdx, if_pos hlt]
    simp only [List.length_cons]
    rw [ih _ _ (by rw [herase]; omega)]

theorem getD_not_mem_eraseIdx {α : Type} (l : List α) (i : ℕ) (d : α)
    (hn : l.Nodup) (h : i < l.length) : l.getD i d ∉ l.eraseIdx i := by
  intro hmem
  rw [List.getD_eq_getElem l d h] at hmem
  rcases List.mem_eraseIdx_iff_getElem.mp hmem with ⟨j, hj, hji, hval⟩
  exact hji (hn.getElem_inj_iff.mp hval)

theorem sampleAux_nodup {α : Type} (d : α) :
    ∀ (k : ℕ) (pool : List α) (r : ℕ → ℕ), pool.Nodup →
      (sampleAux d pool k r).Nodup := by
  intro k
  induction k with
  | zero => intro pool r _; simp [sampleAux]
  | succ k ih =>
    intro pool r hn
    rw [sampleAux]
    split
    · simp
    · refine List.nodup_cons.mpr ⟨fun hmem => ?_, ih _ _ (hn.eraseIdx _)⟩
      have hlt : r 0 % pool.length < pool.length :=
        Nat.mod_lt _ (List.length_pos.mpr (by simpa using ‹¬pool.isEmpty›))
      exact getD_not_mem_eraseIdx pool _ d hn hlt
        (sampleAux_subset d _ _ _ _ hmem)

theorem dquantize2_mono {x y : ℚ} (h : x ≤ y) : dquantize2 x ≤ dquantize2 y := by
  unfold dquantize2
  split_ifs with hx hy hy
  · exact Int.floor_le_floor (by linarith)
  · exact absurd (le_trans hx h) hy
  · have h1 : (0 : ℤ) ≤ ⌊100 * y + 1/2⌋ := Int.floor_nonneg.mpr (by linarith)
    have h2 : (0 : ℤ) ≤ ⌊100 * (-x) + 1/2⌋ := Int.floor_nonneg.mpr (by linarith)
    omega
  · have := Int.floor_le_floor (α := ℚ)
      (show 100 * (-y) + 1/2 ≤ 100 * (-x) + 1/2 by linarith)
    omega

theorem roundHalfEvenZ_le (x : ℚ) : (roundHalfEvenZ x : ℚ) ≤ x + 1/2 := by
  simp only [roundHalfEvenZ]
  split_ifs with h
  · push_cast
    linarith [Int.floor_le (x + 1/2)]
  · exact Int.floor_le _

theorem le_roundHalfEvenZ (x : ℚ) : x - 1/2 ≤ (roundHalfEvenZ x : ℚ) := by
  simp only [roundHalfEvenZ]
  split_ifs with h
  · push_cast
    linarith [h.1]
  · linarith [Int.lt_floor_add_one (x + 1/2)]

/-- C1: for every record produced by `make_record`, `total_cost` equals
the decimal round-half-up of `fuel_units * price_per_unit` to two
fractional digits, computed from the values stored in that same record;
and at the spec's example scenario (uniform draws 100 and 12.345) the
record has `fuel_units = 100.00`, `price_per_unit = 12.35` and
`total_cost = 1235.00`. -/
theorem C1_total_cost_derived :
    (∀ i : RecInput, (make_record i).total_cost
        = dquantize2 ((make_record i).fuel_units
            * centsVal (make_record i).price_per_unit)) ∧
    (make_record exampleInput).fuel_units = 100 ∧
    (make_record exampleInput).price_per_unit = 1235 ∧
    (make_record exampleInput).total_cost = 123500 := by
  have hfu : round2even (100 : ℚ) = 10000 := by
    simp only [round2even, roundHalfEvenZ]
    norm_num
  have hppu : dquantize2 (12345 / 1000 : ℚ) = 1235 := by
    simp only [dquantize2]
    norm_num
  refine ⟨fun i => rfl, ?_, ?_, ?_⟩
  · show ((round2even ((100 : ℚ)) : ℤ) : ℚ) / 100 = 100
    rw [hfu]
    norm_num
  · show money_decimal (12345 / 1000 : ℚ) = 1235
    rw [money_decimal, hppu]
  · show dquantize2 (((round2even ((100 : ℚ)) : ℤ) : ℚ) / 100
        * centsVal (money_decimal (12345 / 1000 : ℚ))) = 123500
    rw [money_decimal, hfu, hppu]
    simp only [centsVal, dquantize2]
    norm_num

/-- C3: `make_batch n` returns exactly `n` records for `n ≥ 0`, each one
generated independently by `make_record` from its own draws, and
`make_batch 0` is the empty batch, not an error. -/
theorem C3_batch_shape (n : ℤ) (g : ℕ → RecInput) (_h : 0 ≤ n) :
    (make_batch n g).length = n.toNat ∧
    (∀ (j : ℕ) (hj : j < (make_batch n g).length),
        (make_batch n g).get ⟨j, hj⟩ = make_record (g j)) ∧
    make_batch 0 g = [] := by
  refine ⟨by simp [make_batch], ?_, by simp [make_batch]⟩
  intro j hj
  simp [make_batch, List.get_eq_getElem]

theorem C3_batch_shape_witness :
    (make_batch 2 (fun _ => exampleInput)).length = (2 : ℤ).toNat ∧
    make_batch 0 (fun _ => exampleInput) = [] :=
  ⟨(C3_batch_shape 2 (fun _ => exampleInput) (by decide)).1,
   (C3_batch_shape 2 (fun _ => exampleInput) (by decide)).2.2⟩

/-- C5: the monetary generator applied to a uniform draw `u` from
`[mn, mx]` quantizes with decimal round-half-up (`dquantize2`), its
result is a fixed-precision decimal with exactly two fractional digits,
and it lies within the quantized range. -/
theorem C5_money_quantization (mn mx u : ℚ) (h1 : mn ≤ u) (h2 : u ≤ mx) :
    money_decimal u = dquantize2 u ∧
    (∃ k : ℤ, centsVal (money_decimal u) = (k : ℚ) / 100) ∧
    dquantize2 mn ≤ money_decimal u ∧ money_decimal u ≤ dquantize2 mx :=
  ⟨rfl, ⟨money_decimal u, rfl⟩, dquantize2_mono h1, dquantize2_mono h2⟩

theorem C5_money_quantization_witness :
    money_decimal (12 : ℚ) = dquantize2 (12 : ℚ) ∧
    (∃ k : ℤ, centsVal (money_decimal (12 : ℚ)) = (k : ℚ) / 100) ∧
    dquantize2 (10 : ℚ) ≤ money_decimal (12 : ℚ) ∧
    money_decimal (12 : ℚ) ≤ dquantize2 (800 : ℚ) :=
  C5_money_quantization 10 800 12 (by norm_num) (by norm_num)

/-- C6: for every record produced by `make_record`, `arrival_date` is the
calendar-date projection of the `visited_at` timestamp stored in the same
record. -/
theorem C6_arrival_date (i : RecInput) :
    (make_record i).arrival_date = dateOf (make_record i).visited_at :=
  rfl

/-- C7: for every record produced by `make_record`, `ship_name` belongs
to `FRANCHISE_SHIPS[franchise]` for the `franchise` stored in the same
record. -/
theorem C7_ship_franchise (i : RecInput) :
    (make_record i).ship_name ∈ shipsOf (make_record i).franchise := by
  have hkeys : (FRANCHISE_SHIPS.map Prod.fst) ≠ [] := by decide
  have hf : pickD (FRANCHISE_SHIPS.map Prod.fst) "" i.fr ∈ FRANCHISE_SHIPS.map Prod.fst :=
    pickD_mem _ _ _ hkeys
  have hne : ∀ f ∈ FRANCHISE_SHIPS.map Prod.fst, shipsOf f ≠ [] := by decide
  exact pickD_mem _ _ _ (hne _ hf)

/-- C8: for every record produced by `make_record`, `services` has
between 1 and 4 entries, no duplicates, all drawn from the fixed service
menu. -/
theorem C8_services (i : RecInput) :
    1 ≤ (make_record i).services.length ∧
    (make_record i).services.length ≤ 4 ∧
    (make_record i).services.Nodup ∧
    ∀ x ∈ (make_record i).services, x ∈ SERVICE_MENU := by
  have hmod : i.kR % 4 < 4 := Nat.mod_lt _ (by norm_num)
  have hk : 1 + i.kR % 4 ≤ SERVICE_MENU.length := by
    simp only [SERVICE_MENU, List.length]
    omega
  have hlen : (make_record i).services.length = 1 + i.kR % 4 :=
    sampleAux_length "" _ _ _ hk
  refine ⟨by omega, by omega, ?_, ?_⟩
  · exact sampleAux_nodup "" _ _ _ (by decide)
  · exact fun x hx => sampleAux_subset "" _ _ _ x hx

theorem toF64_dyadic (q : ℚ) : ∃ (m : ℤ) (e : ℤ), toF64 q = (m : ℚ) * 2 ^ e := by
  unfold toF64
  split_ifs with h0 hpos
  · exact ⟨0, 0, by norm_num⟩
  · exact ⟨roundHalfEvenZ _, floorLog2 q - 52, rfl⟩
  · exact ⟨-(roundHalfEvenZ (-q / 2 ^ (floorLog2 (-q) - 52))), floorLog2 (-q) - 52,
      by push_cast; ring⟩

theorem not_dyadic_1235_100 (m e : ℤ) : (1235 / 100 : ℚ) ≠ (m : ℚ) * 2 ^ e := by
  intro heq
  rcases e with k | k
  · rw [show (Int.ofNat k) = ((k : ℕ) : ℤ) from rfl, zpow_natCast] at heq
    have hz : (1235 : ℤ) = m * 2 ^ k * 100 := by
      field_simp at heq
      exact_mod_cast heq
    have h4 : (4 : ℤ) ∣ 1235 := ⟨m * 2 ^ k * 25, by linarith⟩
    norm_num at h4
  · rw [zpow_negSucc, ← div_eq_mul_inv] at heq
    have hz : (1235 : ℤ) * 2 ^ (k + 1) = m * 100 := by
      rw [div_eq_div_iff (by norm_num) (by positivity)] at heq
      exact_mod_cast heq
    have h5 : (5 : ℤ) ∣ 247 * 2 ^ (k + 1) := ⟨4 * m, by linarith⟩
    have hp : Prime (5 : ℤ) := by norm_num
    rcases hp.dvd_mul.mp h5 with h | h
    · norm_num at h
    · have := hp.dvd_of_dvd_pow h
      norm_num at this

/-- C2 counterexample: the sink adapter converts the `Decimal` fields
through binary `float(...)`; at the example record (price 12.35) the
tuple slot for `price_per_unit` holds the binary64 rounding of 12.35,
which is not equal to the record's decimal value, so the conversion is
not free of precision loss. -/
theorem C2_sink_decimal_counterexample :
    (exportRow (make_record exampleInput)).getD 10 (.str "")
      = .flt (toF64 (centsVal (make_record exampleInput).price_per_unit)) ∧
    (make_record exampleInput).price_per_unit = 1235 ∧
    toF64 (centsVal (1235 : ℤ)) ≠ centsVal (1235 : ℤ) := by
  refine ⟨rfl, ?_, ?_⟩
  · show money_decimal (12345 / 1000 : ℚ) = 1235
    simp only [money_decimal, dquantize2]
    norm_num
  · intro heq
    have hcv : centsVal (1235 : ℤ) = (1235 / 100 : ℚ) := by norm_num [centsVal]
    rw [hcv] at heq
    rcases toF64_dyadic (1235 / 100 : ℚ) with ⟨m, e, hd⟩
    rw [heq] at hd
    exact not_dyadic_1235_100 m e hd

/-- C2 amended: for every record, the sink adapter's row tuple lists the
fields in exactly the column order of the sink's INSERT statement, with
the nested dock struct flattened into the `dock_bay` and `dock_level`
columns; the decimal fields `price_per_unit` and `total_cost` are
converted through binary float64 rounding (`toF64`), which preserves the
decimal value only when that value is representable in binary64 — not in
general. -/
theorem C2_sink_row_amended (r : Record) :
    exportRow r = sinkColumns.map (sinkValue r) ∧
    sinkValue r "dock_bay" = .int r.dock.bay ∧
    sinkValue r "dock_level" = .str r.dock.level ∧
    sinkValue r "price_per_unit" = .flt (toF64 (centsVal r.price_per_unit)) ∧
    sinkValue r "total_cost" = .flt (toF64 (centsVal r.total_cost)) :=
  ⟨rfl, rfl, rfl, rfl, rfl⟩

/-- C4 counterexample: one generation cycle invoked with
`rows_per_file = 0` is not an error: it completes successfully and writes
an (empty, zero-row) output file, contradicting "fatal configuration
error, surfaced immediately, no partial output". -/
theorem C4_nonpositive_rows_counterexample :
    run_once 0 (fun _ => exampleInput) ⟨2025, 1, 2, 3, 4, 5, 6⟩
      = .ok ⟨"fuel_export_20250102_030405.parquet", 0, 17⟩ := by
  rfl

/-- C4 amended: the code validates the row count nowhere; a non-positive
`rows_per_file` is accepted silently, the batch is empty, and the cycle
succeeds, writing a zero-row output file instead of failing. -/
theorem C4_nonpositive_rows_amended (n : ℤ) (g : ℕ → RecInput)
    (t : DateTimeUTC) (h : n ≤ 0) :
    run_once n g t = .ok ⟨parquetFilename t, 0, 17⟩ := by
  have h0 : n.toNat = 0 := Int.toNat_of_nonpos h
  unfold run_once write_parquet from_pylist make_batch
  rw [h0]
  rfl

theorem C4_nonpositive_rows_amended_witness :
    run_once (-3) (fun _ => exampleInput) ⟨2025, 1, 2, 3, 4, 5, 6⟩
      = .ok ⟨parquetFilename ⟨2025, 1, 2, 3, 4, 5, 6⟩, 0, 17⟩ :=
  C4_nonpositive_rows_amended (-3) (fun _ => exampleInput)
    ⟨2025, 1, 2, 3, 4, 5, 6⟩ (by decide)

theorem digitChar_mod (n : ℕ) : digitChar (n % 10) = digitChar n := by
  simp [digitChar, Nat.mod_mod_of_dvd n dvd_rfl]

theorem digitChar_inj (a b : ℕ) (h : digitChar a = digitChar b) :
    a % 10 = b % 10 := by
  have key : ∀ x y : Fin 10, digitChar x.val = digitChar y.val → x = y := by decide
  have ha : a % 10 < 10 := Nat.mod_lt _ (by norm_num)
  have hb : b % 10 < 10 := Nat.mod_lt _ (by norm_num)
  have := key ⟨a % 10, ha⟩ ⟨b % 10, hb⟩ (by rw [digitChar_mod, digitChar_mod]; exact h)
  exact congrArg Fin.val this

theorem stampChars_inj (t1 t2 : DateTimeUTC)
    (hy1 : t1.year < 10000) (hmo1 : t1.month < 100) (hd1 : t1.day < 100)
    (hh1 : t1.hour < 100) (hmi1 : t1.minute < 100) (hs1 : t1.second < 100)
    (hy2 : t2.year < 10000) (hmo2 : t2.month < 100) (hd2 : t2.day < 100)
    (hh2 : t2.hour < 100) (hmi2 : t2.minute < 100) (hs2 : t2.second < 100)
    (h : stampChars t1 = stampChars t2) :
    t1.year = t2.year ∧ t1.month = t2.month ∧ t1.day = t2.day ∧
    t1.hour = t2.hour ∧ t1.minute = t2.minute ∧ t1.second = t2.second := by
  simp only [stampChars, pad4, pad2, List.cons_append, List.nil_append,
    List.cons.injEq, and_assoc, true_and, and_true] at h
  obtain ⟨a1, a2, a3, a4, b1, b2, c1, c2, d1, d2, e1, e2, f1, f2⟩ := h
  refine ⟨?_, ?_, ?_, ?_, ?_, ?_⟩
  · have k1 := digitChar_inj _ _ a1
    have k2 := digitChar_inj _ _ a2
    have k3 := digitChar_inj _ _ a3
    have k4 := digitChar_inj _ _ a4
    omega
  · have k1 := digitChar_inj _ _ b1
    have k2 := digitChar_inj _ _ b2
    omega
  · have k1 := digitChar_inj _ _ c1
    have k2 := digitChar_inj _ _ c2
    omega
  · have k1 := digitChar_inj _ _ d1
    have k2 := digitChar_inj _ _ d2
    omega
  · have k1 := digitChar_inj _ _ e1
    have k2 := digitChar_inj _ _ e2
    omega
  · have k1 := digitChar_inj _ _ f1
    have k2 := digitChar_inj _ _ f2
    omega

/-- C9: the output file name is the fixed prefix and extension around the
second-resolution UTC stamp of the write instant, and two names can only
coincide when the two write instants fall in the same wall-clock second
(all six second-resolution calendar fields agree). -/
theorem C9_filename_determinism (t1 t2 : DateTimeUTC)
    (hy1 : t1.year < 10000) (hmo1 : t1.month < 100) (hd1 : t1.day < 100)
    (hh1 : t1.hour < 100) (hmi1 : t1.minute < 100) (hs1 : t1.second < 100)
    (hy2 : t2.year < 10000) (hmo2 : t2.month < 100) (hd2 : t2.day < 100)
    (hh2 : t2.hour < 100) (hmi2 : t2.minute < 100) (hs2 : t2.second < 100) :
    parquetFilename t1 = "fuel_export_" ++ timestampSecondStr t1 ++ ".parquet" ∧
    (parquetFilename t1 = parquetFilename t2 →
      t1.year = t2.year ∧ t1.month = t2.month ∧ t1.day = t2.day ∧
      t1.hour = t2.hour ∧ t1.minute = t2.minute ∧ t1.second = t2.second) := by
  refine ⟨rfl, fun h => ?_⟩
  have hdata := congrArg String.data h
  simp only [parquetFilename, timestampSecondStr, String.data_append] at hdata
  have h1 := List.append_cancel_right hdata
  have h2 : stampChars t1 = stampChars t2 := List.append_cancel_left h1
  exact stampChars_inj t1 t2 hy1 hmo1 hd1 hh1 hmi1 hs1 hy2 hmo2 hd2 hh2 hmi2 hs2 h2

theorem C9_filename_determinism_witness :
    parquetFilename ⟨2025, 1, 2, 3, 4, 5, 0⟩
      = "fuel_export_" ++ timestampSecondStr ⟨2025, 1, 2, 3, 4, 5, 0⟩ ++ ".parquet" ∧
    (parquetFilename ⟨2025, 1, 2, 3, 4, 5, 0⟩ = parquetFilename ⟨2025, 1, 2, 3, 4, 6, 0⟩ →
      (2025 : ℕ) = 2025 ∧ (1 : ℕ) = 1 ∧ (2 : ℕ) = 2 ∧
      (3 : ℕ) = 3 ∧ (4 : ℕ) = 4 ∧ (5 : ℕ) = 6) :=
  C9_filename_determinism ⟨2025, 1, 2, 3, 4, 5, 0⟩ ⟨2025, 1, 2, 3, 4, 6, 0⟩
    (by decide) (by decide) (by decide) (by decide) (by decide) (by decide)
    (by decide) (by decide) (by decide) (by decide) (by decide) (by decide)

theorem money_decimal_bounds (u : ℚ) (h1 : 10 ≤ u) (h2 : u ≤ 800) :
    (1000 : ℤ) ≤ money_decimal u ∧ money_decimal u ≤ 80000 := by
  have e1 : dquantize2 (10 : ℚ) = 1000 := by simp only [dquantize2]; norm_num
  have e2 : dquantize2 (800 : ℚ) = 80000 := by simp only [dquantize2]; norm_num
  exact ⟨e1 ▸ dquantize2_mono h1, e2 ▸ dquantize2_mono h2⟩

theorem round2even_range (x : ℚ) (h1 : 50 ≤ x) (h2 : x ≤ 5000) :
    (5000 : ℤ) ≤ round2even x ∧ round2even x ≤ 500000 := by
  have lb := le_roundHalfEvenZ (100 * x)
  have ub := roundHalfEvenZ_le (100 * x)
  constructor
  · by_contra hc
    push_neg at hc
    have hq : ((round2even x : ℤ) : ℚ) ≤ 4999 := by
      exact_mod_cast (by omega : round2even x ≤ (4999 : ℤ))
    rw [round2even] at hq
    linarith
  · by_contra hc
    push_neg at hc
    have hq : (500001 : ℚ) ≤ ((round2even x : ℤ) : ℚ) := by
      exact_mod_cast (by omega : (500001 : ℤ) ≤ round2even x)
    rw [round2even] at hq
    linarith

theorem station_id_bounds (i : RecInput) :
    1000 ≤ (make_record i).station_id ∧ (make_record i).station_id ≤ 9999 := by
  show 1000 ≤ 1000 + i.stR % 9000 ∧ 1000 + i.stR % 9000 ≤ 9999
  have := Nat.mod_lt i.stR (show 0 < 9000 by norm_num)
  omega

theorem dock_bay_bounds (i : RecInput) :
    1 ≤ (make_record i).dock.bay ∧ (make_record i).dock.bay ≤ 128 := by
  show 1 ≤ 1 + i.bayR % 128 ∧ 1 + i.bayR % 128 ≤ 128
  have := Nat.mod_lt i.bayR (show 0 < 128 by norm_num)
  omega

theorem price_per_unit_bounds (i : RecInput)
    (hp1 : 10 ≤ i.ppuU) (hp2 : i.ppuU ≤ 800) :
    (1000 : ℤ) ≤ (make_record i).price_per_unit ∧
    (make_record i).price_per_unit ≤ 80000 :=
  money_decimal_bounds i.ppuU hp1 hp2

theorem total_cost_bounds (i : RecInput)
    (hp1 : 10 ≤ i.ppuU) (hp2 : i.ppuU ≤ 800)
    (hf1 : 50 ≤ i.fuelU) (hf2 : i.fuelU ≤ 5000) :
    (0 : ℤ) ≤ (make_record i).total_cost ∧
    (make_record i).total_cost ≤ 400000000 := by
  obtain ⟨hfl, hfu⟩ := round2even_range i.fuelU hf1 hf2
  obtain ⟨hpl, hpu⟩ := money_decimal_bounds i.ppuU hp1 hp2
  have hfl' : (5000 : ℚ) ≤ (round2even i.fuelU : ℚ) := by exact_mod_cast hfl
  have hfu' : (round2even i.fuelU : ℚ) ≤ 500000 := by exact_mod_cast hfu
  have hpl' : (1000 : ℚ) ≤ (money_decimal i.ppuU : ℚ) := by exact_mod_cast hpl
  have hpu' : (money_decimal i.ppuU : ℚ) ≤ 80000 := by exact_mod_cast hpu
  have hprod_lo : (0 : ℚ) ≤ (round2even i.fuelU : ℚ) / 100 * centsVal (money_decimal i.ppuU) := by
    unfold centsVal
    have a1 : (0 : ℚ) ≤ (round2even i.fuelU : ℚ) / 100 := by linarith
    have a2 : (0 : ℚ) ≤ (money_decimal i.ppuU : ℚ) / 100 := by linarith
    exact mul_nonneg a1 a2
  have hprod_hi : (round2even i.fuelU : ℚ) / 100 * centsVal (money_decimal i.ppuU)
      ≤ 4000000 := by
    unfold centsVal
    have a1 : (round2even i.fuelU : ℚ) / 100 ≤ 5000 := by linarith
    have a2 : (money_decimal i.ppuU : ℚ) / 100 ≤ 800 := by linarith
    have a3 : (0 : ℚ) ≤ (money_decimal i.ppuU : ℚ) / 100 := by linarith
    calc (round2even i.fuelU : ℚ) / 100 * ((money_decimal i.ppuU : ℚ) / 100)
        ≤ 5000 * 800 := mul_le_mul a1 a2 a3 (by norm_num)
      _ = 4000000 := by norm_num
  have e0 : dquantize2 (0 : ℚ) = 0 := by
    simp only [dquantize2]
    norm_num
  have e4 : dquantize2 (4000000 : ℚ) = 400000000 := by
    simp only [dquantize2]
    norm_num
  exact ⟨e0 ▸ dquantize2_mono hprod_lo, e4 ▸ dquantize2_mono hprod_hi⟩

theorem all_str_conform (l : List String) :
    (l.map PValue.str).all (fun v => conformsScalar v .string) = true := by
  induction l with
  | nil => rfl
  | cons a t ih => simp [conformsScalar, ih]

theorem conformsRecord_make_record (i : RecInput)
    (hp1 : 10 ≤ i.ppuU) (hp2 : i.ppuU ≤ 800)
    (hf1 : 50 ≤ i.fuelU) (hf2 : i.fuelU ≤ 5000) :
    conformsRecord build_schema (recordDict (make_record i)) = true := by
  obtain ⟨hs1, hs2⟩ := station_id_bounds i
  obtain ⟨hb1, hb2⟩ := dock_bay_bounds i
  obtain ⟨hpl, hpu⟩ := price_per_unit_bounds i hp1 hp2
  obtain ⟨htl, htu⟩ := total_cost_bounds i hp1 hp2 hf1 hf2
  simp only [conformsRecord, recordDict, build_schema, List.map_cons, List.map_nil,
    List.zip_cons_cons, List.zip_nil_right, List.all_cons, List.all_nil,
    List.length_cons, List.length_nil,
    conformsField, conformsScalar, all_str_conform,
    Bool.and_eq_true, Bool.and_true, beq_self_eq_true, beq_iff_eq,
    decide_eq_true_eq, and_true, true_and]
  refine ⟨⟨by omega, by omega⟩, ⟨by omega, by omega⟩, by omega, by omega,
    all_str_conform _⟩

/-- C10: every record produced by `make_record` carries exactly the 17
field names `build_schema` declares (no missing and no extra keys), with
the dock struct and services list in the declared shapes, so the writer's
schema-violation branch (`from_pylist` erroring) is unreachable for
batches produced by `make_batch`: it returns a table with one row per
record and 17 columns. The hypotheses are the static uniform ranges of
the two monetary draws. -/
theorem C10_schema_conformance (n : ℤ) (g : ℕ → RecInput)
    (hb : ∀ j : ℕ, 10 ≤ (g j).ppuU ∧ (g j).ppuU ≤ 800 ∧
      50 ≤ (g j).fuelU ∧ (g j).fuelU ≤ 5000) :
    (∀ i : RecInput,
      (recordDict (make_record i)).map Prod.fst = build_schema.map Prod.fst) ∧
    from_pylist (make_batch n g) build_schema
      = .ok ⟨(make_batch n g).length, 17⟩ := by
  refine ⟨fun i => rfl, ?_⟩
  have hall : ((make_batch n g).all
      fun r => conformsRecord build_schema (recordDict r)) = true := by
    rw [List.all_eq_true]
    intro r hr
    simp only [make_batch, List.mem_map, List.mem_range] at hr
    obtain ⟨j, _, rfl⟩ := hr
    obtain ⟨b1, b2, b3, b4⟩ := hb j
    exact conformsRecord_make_record (g j) b1 b2 b3 b4
  unfold from_pylist
  rw [if_pos hall]
  rfl

theorem C10_schema_conformance_witness :
    (∀ i : RecInput,
      (recordDict (make_record i)).map Prod.fst = build_schema.map Prod.fst) ∧
    from_pylist (make_batch 1 (fun _ => exampleInput)) build_schema
      = .ok ⟨(make_batch 1 (fun _ => exampleInput)).length, 17⟩ :=
  C10_schema_conformance 1 (fun _ => exampleInput)
    (fun _ => by refine ⟨?_, ?_, ?_, ?_⟩ <;> norm_num [exampleInput])

end FuelExports
